import Mathlib

/-!
A shallow embedding of the DocuQuery backend (src/backend/app.py) and proofs
about it. Python strings are modelled as Lean `String`; Python dicts as
association lists or functions; timestamps as integers (seconds). External
library calls (pdf/docx parsers, the recursive text splitter, the Ollama
client, werkzeug sanitization) are parameters of the embedded functions;
everything written in app.py itself is translated directly.
-/

namespace DocuQuery

/-! ### Python string primitives

Models of the Python string operations used by app.py: `str.lower`,
`str.strip`, `str.split` with no argument (whitespace runs), `str.split`
with a separator, and the `in` substring test. All are implemented over
the character list `s.data` so that they reduce well in the kernel.
-/

/-- Model of Python `str.lower()` (ASCII case folding). -/
def pyLower (s : String) : String := ⟨s.data.map Char.toLower⟩

/-- Strip whitespace from both ends of a character list (Python `str.strip()`). -/
def pyStripChars (l : List Char) : List Char :=
  ((l.dropWhile Char.isWhitespace).reverse.dropWhile Char.isWhitespace).reverse

/-- Model of Python `str.strip()`. -/
def pyStrip (s : String) : String := ⟨pyStripChars s.data⟩

/-- Split a character list at each occurrence of two consecutive newlines,
scanning left to right without overlap: Python `text.split("\n\n")`.
The accumulator holds the current piece reversed. -/
def splitParas : List Char → List Char → List (List Char)
  | [], acc => [acc.reverse]
  | '\n' :: '\n' :: rest, acc => acc.reverse :: splitParas rest []
  | c :: rest, acc => splitParas rest (c :: acc)

/-- Split a character list at each newline: Python `text.split("\n")`. -/
def splitLines : List Char → List Char → List (List Char)
  | [], acc => [acc.reverse]
  | '\n' :: rest, acc => acc.reverse :: splitLines rest []
  | c :: rest, acc => splitLines rest (c :: acc)

/-- Split a character list at each whitespace character (keeping empty pieces,
which the caller filters out): the core of Python `str.split()`. -/
def splitWsChars : List Char → List Char → List (List Char)
  | [], acc => [acc.reverse]
  | c :: rest, acc =>
    if c.isWhitespace then acc.reverse :: splitWsChars rest []
    else splitWsChars rest (c :: acc)

/-- Model of Python `str.split()` with no argument: split on whitespace runs,
dropping empty pieces. -/
def pyWords (s : String) : List String :=
  ((splitWsChars s.data []).filter (fun w => w ≠ [])).map (fun w => ⟨w⟩)

/-- Model of the Python substring test `pat in s`. -/
def strContains (s pat : String) : Bool :=
  s.data.tails.any (fun t => pat.data.isPrefixOf t)

/-! ### Text segments and the TXT extractor (app.py lines 96-124) -/

/-- The provenance label of a text segment or chunk: exactly one of the
Python dict keys `page`, `section`, `lines` is populated, selected by the
owning file type. -/
inductive SegLabel : Type
  | page : Nat → SegLabel
  | sectionNo : Nat → SegLabel
  | lines : String → SegLabel
deriving DecidableEq, Repr

/-- A text segment produced by an extractor: one of the dicts appended to
`text_data` in app.py. -/
structure TextSegment : Type where
  label : SegLabel
  text : String
deriving DecidableEq, Repr

/-- Model of Python `"\n".join(lines)`. -/
def joinNl : List (List Char) → List Char
  | [] => []
  | [l] => l
  | l :: rest => l ++ '\n' :: joinNl rest

/-- The 15-line grouping loop of `extract_text_from_txt`
(`for i in range(0, len(lines), chunk_size)` with `chunk_size = 15`):
`total` is `len(lines)`, the list argument is the lines not yet consumed and
the counter is the running index `i`. -/
def txtLineGroups (total : Nat) : List (List Char) → Nat → List TextSegment
  | [], _ => []
  | l :: rest, i =>
    let chunk_lines := (l :: rest).take 15
    let chunk_text := pyStripChars (joinNl chunk_lines)
    (if chunk_text ≠ [] then
      [{ label := SegLabel.lines (Nat.repr (i + 1) ++ "-" ++ Nat.repr (min (i + 15) total)),
         text := ⟨chunk_text⟩ }]
     else []) ++ txtLineGroups total ((l :: rest).drop 15) (i + 15)
termination_by l => l.length
decreasing_by simp; omega

/-- Embedding of `extract_text_from_txt` (app.py lines 96-124), applied to the
decoded file text. -/
def extract_text_from_txt (text : String) : List TextSegment :=
  let paragraphs :=
    ((splitParas text.data []).map (fun p => pyStripChars p)).filter (fun p => p ≠ [])
  if paragraphs ≠ [] then
    paragraphs.enum.map (fun ip =>
      { label := SegLabel.lines ("¶" ++ Nat.repr (ip.1 + 1)), text := ⟨ip.2⟩ })
  else
    let ls := splitLines text.data []
    txtLineGroups ls.length ls 0

/-! ### Rate limiter (app.py lines 26-47)

`rate_limit_store` is a `defaultdict(list)` keyed by the client identifier;
timestamps are modelled as integers (seconds). `datetime.now()` is the `now`
argument. -/

def RATE_LIMIT_REQUESTS : Nat := 30

def RATE_LIMIT_WINDOW : Int := 60

/-- The per-identifier timestamp table `rate_limit_store`. -/
def RateStore : Type := String → List Int

/-- The empty `defaultdict(list)`. -/
def emptyRateStore : RateStore := fun _ => []

/-- Point update of the rate-limit table. -/
def setRate (store : RateStore) (identifier : String) (rec : List Int) : RateStore :=
  fun k => if k = identifier then rec else store k

/-- Embedding of `check_rate_limit` (app.py lines 34-47). Returns the bool
result together with the updated store. -/
def check_rate_limit (identifier : String) (now : Int) (store : RateStore) :
    Bool × RateStore :=
  let cutoff := now - RATE_LIMIT_WINDOW
  let pruned := (store identifier).filter (fun timestamp => cutoff < timestamp)
  if RATE_LIMIT_REQUESTS ≤ pruned.length then
    (false, setRate store identifier pruned)
  else
    (true, setRate store identifier (pruned ++ [now]))

/-- Run a sequence of checks for one identifier, returning the accept/reject
results in order together with the final store. -/
def runRateChecks (identifier : String) : List Int → RateStore → List Bool × RateStore
  | [], store => ([], store)
  | now :: rest, store =>
    let r := check_rate_limit identifier now store
    let rs := runRateChecks identifier rest r.2
    (r.1 :: rs.1, rs.2)

/-! ### Chunks and the chunking engine (app.py lines 126-154) -/

/-- A chunk as built by `chunk_text_smart`: text plus a one-field metadata
dict. -/
structure Chunk : Type where
  text : String
  metadata : SegLabel
deriving DecidableEq, Repr

set_option linter.unusedVariables false in
/-- Embedding of `chunk_text_smart` (app.py lines 126-154). The
`RecursiveCharacterTextSplitter` is an external library; its `split_text`
method is the `split_text` parameter. In the Python, the metadata key
(`page` / `section` / `lines`) is selected by `file_type`; the extractors
always populate exactly the key matching their file type, which the typed
`SegLabel` already carries, so the label is copied verbatim. -/
def chunk_text_smart (split_text : String → List String)
    (text_data : List TextSegment) (file_type : String) : List Chunk :=
  text_data.flatMap (fun item =>
    (split_text item.text).map (fun chunk_text =>
      { text := chunk_text, metadata := item.label }))

/-! ### Document registry (app.py lines 26, 190-257)

`documents_store` is a Python dict; modelled as an association list in
insertion order. Assignment to an existing key replaces the value in place,
assignment to a fresh key appends. -/

/-- One value of `documents_store`. -/
structure StoredDoc : Type where
  filename : String
  file_type : String
  chunks : List Chunk
  raw_text_data : List TextSegment
  uploaded_at : Nat
deriving DecidableEq, Repr

abbrev DocStore : Type := List (String × StoredDoc)

/-- Python dict assignment `documents_store[doc_id] = data`: replace the value
in place when the key is present (keys are unique in a Python dict),
otherwise append the new entry at the end, as CPython dicts preserve
insertion order. -/
def dictSet : DocStore → String → StoredDoc → DocStore
  | [], k, v => [(k, v)]
  | e :: rest, k, v => if e.1 = k then (k, v) :: rest else e :: dictSet rest k v

/-- Python dict lookup `documents_store.get(doc_id)` / `doc_id in documents_store`. -/
def dictGet : DocStore → String → Option StoredDoc
  | [], _ => none
  | e :: rest, k => if e.1 = k then some e.2 else dictGet rest k

/-! ### Upload endpoint (app.py lines 177-232) -/

/-- The response of `/api/upload`: success payload, 400, or 500. The
swallowed-failure summary field never affects the registry and is omitted. -/
inductive UploadResponse : Type
  | ok (doc_id filename : String) (chunks_count : Nat)
  | badRequest (msg : String)
  | serverError (msg : String)
deriving DecidableEq, Repr

def UploadResponse.isSuccess : UploadResponse → Bool
  | .ok _ _ _ => true
  | _ => false

/-- The characters of a filename after its last dot: Python
`filename.rsplit(".", 1)[1]` when the name contains a dot. -/
def afterLastDot (s : String) : String :=
  ⟨(s.data.reverse.takeWhile (fun c => c ≠ '.')).reverse⟩

/-- Embedding of `allowed_file` (app.py lines 31-32). -/
def allowed_file (filename : String) : Bool :=
  filename.data.contains '.' &&
    ((pyLower (afterLastDot filename) = "pdf") ||
     (pyLower (afterLastDot filename) = "docx") ||
     (pyLower (afterLastDot filename) = "txt"))

/-- Embedding of `upload_file` (app.py lines 177-232).

External pieces are parameters: `secure_fn` is werkzeug
`secure_filename`; `split_text` is the text splitter; `extract_pdf`,
`extract_docx`, `extract_txt` are the outcomes of the respective extractor
applied to this request's saved file (`Except` models the raised extraction
error, which the handler turns into a 500). `hasFile` is
`"file" in request.files`, `origName` is `file.filename`, and `timestamp`
is `int(time.time())` at this request.

When the sanitized name has no dot, `filename.rsplit(".", 1)[1]` raises
`IndexError`, which the surrounding `try` turns into a 500 with the Python
message `list index out of range`; no document is registered.
`generate_summary` swallows every failure and never touches the registry, so
it is not modelled. -/
def upload_file (secure_fn : String → String) (split_text : String → List String)
    (extract_pdf extract_docx extract_txt : Except String (List TextSegment))
    (hasFile : Bool) (origName : String) (timestamp : Nat)
    (store : DocStore) : UploadResponse × DocStore :=
  if ¬hasFile then (.badRequest "No file provided", store)
  else if origName = "" then (.badRequest "No file selected", store)
  else if ¬allowed_file origName then
    (.badRequest "File type not supported. Please upload PDF, DOCX, or TXT files.", store)
  else
    let filename := secure_fn origName
    let unique_filename := Nat.repr timestamp ++ "_" ++ filename
    if ¬filename.data.contains '.' then (.serverError "list index out of range", store)
    else
      let file_ext := pyLower (afterLastDot filename)
      let res := if file_ext = "pdf" then extract_pdf
                 else if file_ext = "docx" then extract_docx
                 else extract_txt
      match res with
      | .error e => (.serverError e, store)
      | .ok text_data =>
        let chunks := chunk_text_smart split_text text_data file_ext
        let doc_id := unique_filename
        (.ok doc_id filename chunks.length, dictSet store doc_id
          { filename := filename, file_type := file_ext, chunks := chunks,
            raw_text_data := text_data, uploaded_at := timestamp })

/-! ### Keyword-overlap retrieval (app.py lines 422-446)

The Python function reads only `chunk["text"]` from each candidate and is
used both on plain chunks and on source-tagged copies, so the embedding is
generic in the element type with a `getText` projection (Python duck
typing). The Python word sets are modelled as deduplicated word lists;
`len(question_words & chunk_words)` is the number of distinct question
words occurring among the chunk words. `list.sort(reverse=True, key=...)`
is a stable sort placing larger scores first, modelled by `mergeSort` with
`b.1 ≤ a.1`. The bare `except` around the body can only fire on a Python
runtime fault; the embedded body is total, so the `chunks[:5]` exception
fallback is unreachable here. -/

/-- Stable insertion of `x` into a `le`-sorted list: `x` is placed before the
first element it may precede. -/
def insertS {α : Type} (le : α → α → Bool) (x : α) : List α → List α
  | [] => [x]
  | y :: ys => if le x y then x :: y :: ys else y :: insertS le x ys

/-- A stable sort by the total comparison `le`, placing, among elements that
compare equal, earlier input elements first: the guarantee CPython documents
for `list.sort` (and `sort(reverse=True)` likewise preserves the input order
of equal keys). Implemented as insertion sort so that it reduces in the
kernel; proved equal to `List.mergeSort` below. -/
def pySort {α : Type} (le : α → α → Bool) : List α → List α
  | [] => []
  | x :: xs => insertS le x (pySort le xs)

/-- The `scored_chunks` list built by the loop of `find_relevant_chunks_fast`:
the `(keyword_overlap, chunk)` pairs of the candidates appended by the loop
body, in order. -/
def scoredChunksOf {α : Type} (getText : α → String) (question : String)
    (chunks : List α) : List (Nat × α) :=
  let question_lower := pyLower question
  let question_words := (pyWords question_lower).dedup
  chunks.filterMap (fun chunk =>
    let text_lower := pyLower (getText chunk)
    let chunk_words := pyWords text_lower
    let keyword_overlap := (question_words.filter (fun w => chunk_words.contains w)).length
    if decide (0 < keyword_overlap) ||
       question_words.any (fun word => strContains text_lower word) then
      some (keyword_overlap, chunk)
    else none)

def find_relevant_chunks_fast {α : Type} (getText : α → String)
    (question : String) (chunks : List α) : List α :=
  let scored_chunks := scoredChunksOf getText question chunks
  let sorted := pySort (fun a b => decide (b.1 ≤ a.1)) scored_chunks
  let top_chunks := (sorted.take 10).map (fun sc => sc.2)
  if top_chunks.isEmpty then chunks.take 5 else top_chunks

/-- The word set of the question, as the claims describe it. -/
def questionWordSet (question : String) : List String :=
  (pyWords (pyLower question)).dedup

/-- The overlap score of one candidate text against the question: the size of
the intersection of the lower-cased whitespace-split word sets. -/
def overlapScore (question text : String) : Nat :=
  ((questionWordSet question).filter
    (fun w => (pyWords (pyLower text)).contains w)).length

/-- Whether a candidate qualifies: positive overlap score, or some question
word occurring as a substring of the lower-cased text. -/
def chunkQualifies (question text : String) : Bool :=
  decide (0 < overlapScore question text) ||
    (questionWordSet question).any (fun word => strContains (pyLower text) word)

/-- The qualifying candidates, in original order. -/
def qualifyingChunks {α : Type} (getText : α → String) (question : String)
    (chunks : List α) : List α :=
  chunks.filter (fun c => chunkQualifies question (getText c))

/-- Descending comparison of candidates by overlap score. -/
def scoreOrder {α : Type} (getText : α → String) (question : String) : α → α → Bool :=
  fun a b => decide (overlapScore question (getText b) ≤ overlapScore question (getText a))

/-! ### Streaming ask endpoints (app.py lines 259-420)

The generator bodies are embedded as pure functions of the upstream Ollama
stream, which is a pair: the content tokens delivered, then an optional
exception message raised by `ollama.chat` or mid-stream (in the Python, the
`except` around the generator then emits an error event instead of the
trailing references event). Prompt construction only feeds the external
model and does not affect any observable of the claims, so the prompt
string itself is not modelled. -/

/-- One server-sent event, parameterized by the reference shape. -/
inductive StreamEvent (ρ : Type) : Type
  | token (s : String)
  | final (references : List ρ) (confidence : String)
  | error (msg : String)
deriving DecidableEq, Repr

/-- A reference of `/api/ask-stream`. -/
structure Reference : Type where
  text : String
  metadata : SegLabel
deriving DecidableEq, Repr

/-- A reference of `/api/ask-multi`, carrying the source filename. -/
structure MultiReference : Type where
  text : String
  metadata : SegLabel
  source : String
deriving DecidableEq, Repr

/-- A chunk copy tagged with its source filename, as built by
`ask_multi_document` (`chunk.copy()` plus a `source` key). -/
structure TaggedChunk : Type where
  text : String
  metadata : SegLabel
  source : String
deriving DecidableEq, Repr

/-- Python `chunk["text"][:200] + "..." if len(chunk["text"]) > 200 else
chunk["text"]`. -/
def truncRef (s : String) : String :=
  if 200 < s.length then ⟨s.data.take 200⟩ ++ "..." else s

def cannedNoMatchStream : String :=
  "I could not find relevant information in the document to answer this question."

def cannedNoMatchMulti : String :=
  "I could not find relevant information across the documents to answer this question."

/-- The generator body of `ask_question_stream` (app.py lines 277-333). -/
def ask_stream_generate (question : String) (chunks : List Chunk)
    (llmTokens : List String) (llmErr : Option String) :
    List (StreamEvent Reference) :=
  let relevant_chunks := find_relevant_chunks_fast Chunk.text question chunks
  if relevant_chunks = [] then
    [.token cannedNoMatchStream, .final [] "low"]
  else
    (llmTokens.map .token) ++
    match llmErr with
    | some e =>
      let error_msg := e
      if strContains (pyLower error_msg) "model" ||
         strContains (pyLower error_msg) "not found" then
        [.error ("Ollama model error: " ++ error_msg)]
      else
        [.error ("Error processing question: " ++ error_msg)]
    | none =>
      [.final ((relevant_chunks.take 3).map (fun c =>
          { text := truncRef c.text, metadata := c.metadata }))
        (if 2 ≤ relevant_chunks.length then "high" else "medium")]

/-- `all_chunks` as built by `ask_multi_document` (app.py lines 356-364):
for each stored document in order, a copy of each chunk tagged with the
owning filename. -/
def collectAllChunks (store : DocStore) : List TaggedChunk :=
  store.flatMap (fun e =>
    e.2.chunks.map (fun c =>
      { text := c.text, metadata := c.metadata, source := e.2.filename }))

/-- The generator body of `ask_multi_document` (app.py lines 354-418). Its
`except` branch emits the generic message for every failure text. -/
def ask_multi_generate (question : String) (store : DocStore)
    (llmTokens : List String) (llmErr : Option String) :
    List (StreamEvent MultiReference) :=
  let all_chunks := collectAllChunks store
  let relevant_chunks := find_relevant_chunks_fast TaggedChunk.text question all_chunks
  if relevant_chunks = [] then
    [.token cannedNoMatchMulti, .final [] "low"]
  else
    (llmTokens.map .token) ++
    match llmErr with
    | some e => [.error ("Error processing question: " ++ e)]
    | none =>
      [.final ((relevant_chunks.take 5).map (fun c =>
          { text := truncRef c.text, metadata := c.metadata, source := c.source }))
        (if 3 ≤ relevant_chunks.length then "high" else "medium")]

/-- The HTTP-level outcome of a streaming ask endpoint. -/
inductive AskOutcome (ρ : Type) : Type
  | rateLimited
  | missingQuestion
  | invalidDoc
  | noDocs
  | stream (events : List (StreamEvent ρ))
deriving DecidableEq, Repr

/-- Embedding of the `/api/ask-stream` handler `ask_question_stream`
(app.py lines 259-335): rate-limit check first, then question and doc_id
validation, then the streamed generator. Returns the outcome, the document
registry (which the handler never assigns to) and the updated rate store. -/
def ask_question_stream (llmTokens : List String) (llmErr : Option String)
    (question doc_id : String) (client_ip : String) (now : Int)
    (docStore : DocStore) (rateStore : RateStore) :
    AskOutcome Reference × DocStore × RateStore :=
  let checked := check_rate_limit client_ip now rateStore
  if checked.1 = false then (.rateLimited, docStore, checked.2)
  else if question = "" then (.missingQuestion, docStore, checked.2)
  else if doc_id = "" then (.invalidDoc, docStore, checked.2)
  else
    match dictGet docStore doc_id with
    | none => (.invalidDoc, docStore, checked.2)
    | some doc =>
      (.stream (ask_stream_generate question doc.chunks llmTokens llmErr),
       docStore, checked.2)

/-- Embedding of the `/api/ask-multi` handler `ask_multi_document`
(app.py lines 337-420). -/
def ask_multi_document (llmTokens : List String) (llmErr : Option String)
    (question : String) (client_ip : String) (now : Int)
    (docStore : DocStore) (rateStore : RateStore) :
    AskOutcome MultiReference × DocStore × RateStore :=
  let checked := check_rate_limit client_ip now rateStore
  if checked.1 = false then (.rateLimited, docStore, checked.2)
  else if question = "" then (.missingQuestion, docStore, checked.2)
  else if docStore = [] then (.noDocs, docStore, checked.2)
  else
    (.stream (ask_multi_generate question docStore llmTokens llmErr),
     docStore, checked.2)

/-! ### Read-only document endpoints (app.py lines 234-257) -/

/-- One entry of the `/api/documents` listing. -/
structure DocListing : Type where
  doc_id : String
  filename : String
  file_type : String
  chunks_count : Nat
deriving DecidableEq, Repr

/-- Embedding of `get_documents` (app.py lines 234-245): build the listing
and sort it by `doc_id` descending (Python `list.sort(key=..., reverse=True)`).
Returns the registry unchanged alongside, mirroring that the handler never
assigns to it. -/
def get_documents (store : DocStore) : List DocListing × DocStore :=
  let docs := store.map (fun e =>
    { doc_id := e.1, filename := e.2.filename, file_type := e.2.file_type,
      chunks_count := e.2.chunks.length })
  (pySort (fun a b => decide (b.doc_id ≤ a.doc_id)) docs, store)

/-- The response of `/api/document/<doc_id>`. -/
inductive DocResponse : Type
  | notFound
  | ok (filename file_type : String) (text_data : List TextSegment)
deriving DecidableEq, Repr

/-- Embedding of `get_document` (app.py lines 247-257). -/
def get_document (store : DocStore) (doc_id : String) : DocResponse × DocStore :=
  match dictGet store doc_id with
  | none => (.notFound, store)
  | some doc => (.ok doc.filename doc.file_type doc.raw_text_data, store)

/-! ### Decimal representation helpers

Used to show that the timestamp prefix makes doc_ids of uploads at distinct
integer timestamps distinct: `Nat.repr` is injective, shown via a decimal
parse that is a left inverse of `Nat.toDigits 10`. -/

/-- The numeric value of a decimal digit character. -/
def digitVal (c : Char) : Nat := c.toNat - 48

/-- Fold a decimal digit string onto an accumulator. -/
def ofDigitsFrom (a : Nat) : List Char → Nat
  | [] => a
  | c :: rest => ofDigitsFrom (a * 10 + digitVal c) rest

/-- The number of decimal digits of a natural number (at least 1). -/
def numDigits (n : Nat) : Nat :=
  if n < 10 then 1 else numDigits (n / 10) + 1
decreasing_by exact Nat.div_lt_self (by omega) (by omega)

/-! ### Concrete values used by witnesses and counterexamples -/

/-- A 30-line text with no blank lines. -/
def exThirtyLines : String := String.intercalate "\n" (List.replicate 30 "line of text")

/-- A chunk that shares words with the question used in witnesses. -/
def exParisChunk : Chunk := { text := "Paris is the capital of France", metadata := SegLabel.page 1 }

/-- A chunk unrelated to the witness question. -/
def exOtherChunk : Chunk := { text := "zzz qqq www", metadata := SegLabel.page 2 }

/-- A registry holding one document with one chunk. -/
def exDocStore : DocStore :=
  [("100_a.txt",
    { filename := "a.txt", file_type := "txt", chunks := [exParisChunk],
      raw_text_data := [{ label := SegLabel.lines "¶1", text := "Paris is the capital of France" }],
      uploaded_at := 100 })]

/-- A rate store whose one identifier already has 30 recent timestamps. -/
def exFullRateStore : RateStore := fun _ => (List.range 30).map Int.ofNat

/-- A chunk sharing two words with the witness question. -/
def exCapitalChunk : Chunk := { text := "the capital city", metadata := SegLabel.page 3 }

/-- A first upload of `a.txt` at timestamp 100 into an empty registry. -/
def exUpload1 : UploadResponse × DocStore :=
  upload_file id (fun s => [s]) (.ok []) (.ok [])
    (.ok [{ label := SegLabel.lines "¶1", text := "alpha" }]) true "a.txt" 100 []

/-- A second upload of the same filename `a.txt` in the same second
(timestamp 100), on the registry left by `exUpload1`. -/
def exUpload2 : UploadResponse × DocStore :=
  upload_file id (fun s => [s]) (.ok []) (.ok [])
    (.ok [{ label := SegLabel.lines "¶1", text := "beta" }]) true "a.txt" 100 exUpload1.2

/-! ## Helper lemmas -/

theorem insertS_append {α : Type} (le : α → α → Bool) (a : α) (l₁ l₂ : List α)
    (h1 : ∀ b ∈ l₁, le a b = false)
    (h2 : ∀ y, l₂.head? = some y → le a y = true) :
    insertS le a (l₁ ++ l₂) = l₁ ++ a :: l₂ := by
  induction l₁ with
  | nil =>
    cases l₂ with
    | nil => simp [insertS]
    | cons y ys => simp [insertS, h2 y rfl]
  | cons b bs ih =>
    simp only [List.cons_append, insertS, h1 b (List.mem_cons_self b bs)]
    simp only [Bool.false_eq_true, if_false, List.cons.injEq, true_and]
    exact ih (fun c hc => h1 c (List.mem_cons_of_mem b hc))

/-- `pySort` agrees with the library's (stable) `mergeSort` for any total
transitive comparison. -/
theorem pySort_eq_mergeSort {α : Type} (le : α → α → Bool)
    (htrans : ∀ (a b c : α), le a b → le b c → le a c)
    (htotal : ∀ (a b : α), le a b || le b a) :
    ∀ l : List α, pySort le l = l.mergeSort le := by
  intro l
  induction l with
  | nil => simp [pySort]
  | cons a l ih =>
    obtain ⟨l₁, l₂, h1, h2, h3⟩ := List.mergeSort_cons htrans htotal a l
    rw [pySort, ih, h2, h1]
    apply insertS_append
    · intro b hb
      have := h3 b hb
      simpa using this
    · intro y hy
      have hs := List.sorted_mergeSort htrans htotal (a :: l)
      rw [h1] at hs
      have hcons := (List.pairwise_append.mp hs).2.1
      exact List.rel_of_pairwise_cons hcons (List.mem_of_mem_head? hy)

theorem filterMap_if_map {α β : Type} (p : α → Bool) (g : α → β) :
    ∀ l : List α,
      l.filterMap (fun c => if p c then some (g c) else none) = (l.filter p).map g := by
  intro l
  induction l with
  | nil => rfl
  | cons a l ih => by_cases h : p a <;> simp [h, ih]

theorem length_insertS {α : Type} (le : α → α → Bool) (x : α) (l : List α) :
    (insertS le x l).length = l.length + 1 := by
  induction l with
  | nil => rfl
  | cons y ys ih => by_cases h : le x y <;> simp [insertS, h, ih]

theorem length_pySort {α : Type} (le : α → α → Bool) (l : List α) :
    (pySort le l).length = l.length := by
  induction l with
  | nil => rfl
  | cons x xs ih => simp [pySort, length_insertS, ih]

/-- Transitivity of descending comparison by a natural-number key. -/
theorem keyDesc_trans {α : Type} (key : α → Nat) :
    ∀ a b c : α, (decide (key b ≤ key a)) → (decide (key c ≤ key b)) →
      (decide (key c ≤ key a)) := by
  intro a b c hab hbc
  simp only [decide_eq_true_eq] at *
  omega

/-- Totality of descending comparison by a natural-number key. -/
theorem keyDesc_total {α : Type} (key : α → Nat) :
    ∀ a b : α, (decide (key b ≤ key a)) || (decide (key a ≤ key b)) := by
  intro a b
  simp only [Bool.or_eq_true, decide_eq_true_eq]
  exact (Nat.le_total (key b) (key a))

theorem scoredChunksOf_eq {α : Type} (getText : α → String) (question : String)
    (chunks : List α) :
    scoredChunksOf getText question chunks
      = (qualifyingChunks getText question chunks).map
          (fun c => (overlapScore question (getText c), c)) :=
  filterMap_if_map (fun c : α => chunkQualifies question (getText c))
    (fun c : α => (overlapScore question (getText c), c)) chunks

/-- Sorting the scored pairs by first component agrees with sorting the
underlying candidates by score. -/
theorem pySort_scored_eq {α : Type} (getText : α → String) (question : String)
    (l : List α) :
    pySort (fun a b : Nat × α => decide (b.1 ≤ a.1))
        (l.map (fun c => (overlapScore question (getText c), c)))
      = (pySort (scoreOrder getText question) l).map
          (fun c => (overlapScore question (getText c), c)) := by
  rw [pySort_eq_mergeSort _ (keyDesc_trans Prod.fst) (keyDesc_total Prod.fst),
      pySort_eq_mergeSort (scoreOrder getText question)
        (keyDesc_trans (fun c => overlapScore question (getText c)))
        (keyDesc_total (fun c => overlapScore question (getText c)))]
  exact (@List.map_mergeSort α (Nat × α) (scoreOrder getText question)
    (fun a b => decide (b.1 ≤ a.1)) (fun c => (overlapScore question (getText c), c)) l
    (fun a _ b _ => rfl)).symm

theorem find_relevant_of_no_qualifier {α : Type} (getText : α → String) (question : String)
    (chunks : List α) (hq : qualifyingChunks getText question chunks = []) :
    find_relevant_chunks_fast getText question chunks = chunks.take 5 := by
  simp only [find_relevant_chunks_fast, scoredChunksOf_eq, hq]
  simp [pySort]

theorem find_relevant_of_qualifier {α : Type} (getText : α → String) (question : String)
    (chunks : List α) (hq : qualifyingChunks getText question chunks ≠ []) :
    find_relevant_chunks_fast getText question chunks
      = (pySort (scoreOrder getText question)
          (qualifyingChunks getText question chunks)).take 10 := by
  simp only [find_relevant_chunks_fast, scoredChunksOf_eq, pySort_scored_eq,
    ← List.map_take, List.map_map]
  have hid : ((fun sc : Nat × α => sc.2) ∘ (fun c => (overlapScore question (getText c), c)))
      = id := rfl
  rw [hid, List.map_id]
  have hlen : pySort (scoreOrder getText question)
      (qualifyingChunks getText question chunks) ≠ [] := by
    intro hcon
    have := length_pySort (scoreOrder getText question)
      (qualifyingChunks getText question chunks)
    rw [hcon] at this
    exact hq (List.length_eq_zero.mp this.symm)
  have hie : ((pySort (scoreOrder getText question)
      (qualifyingChunks getText question chunks)).take 10).isEmpty = false := by
    simp [List.isEmpty_iff, List.take_eq_nil_iff, hlen]
  rw [hie]
  simp

theorem pyStripChars_eq_nil {l : List Char} (h : ∀ c ∈ l, c.isWhitespace) :
    pyStripChars l = [] := by
  unfold pyStripChars
  rw [List.dropWhile_eq_nil_iff.mpr h]
  rfl

theorem mem_of_pyStripChars_nil {l : List Char} (h : pyStripChars l = []) :
    ∀ c ∈ l, c.isWhitespace := by
  unfold pyStripChars at h
  rw [List.reverse_eq_nil_iff] at h
  have h2 : ∀ c ∈ (l.dropWhile Char.isWhitespace).reverse, c.isWhitespace :=
    List.dropWhile_eq_nil_iff.mp h
  intro c hc
  rw [← @List.takeWhile_append_dropWhile _ Char.isWhitespace l] at hc
  rcases List.mem_append.mp hc with hm | hm
  · exact List.mem_takeWhile_imp hm
  · exact h2 c (List.mem_reverse.mpr hm)

/-- Every character of the splitter input is in some piece or is a newline of
a separator. -/
theorem splitParas_chars : ∀ (l acc : List Char) (c : Char),
    (c ∈ l ∨ c ∈ acc) →
    (∃ p ∈ splitParas l acc, c ∈ p) ∨ c = '\n' := by
  intro l acc
  induction l, acc using splitParas.induct with
  | case1 acc =>
    intro c hc
    rcases hc with h | h
    · simp at h
    · left
      exact ⟨acc.reverse, by rw [splitParas]; simp, List.mem_reverse.mpr h⟩
  | case2 rest acc ih =>
    intro c hc
    rw [splitParas]
    rcases hc with h | h
    · rcases List.mem_cons.mp h with rfl | h
      · right; rfl
      rcases List.mem_cons.mp h with rfl | h
      · right; rfl
      · rcases ih c (Or.inl h) with ⟨p, hp, hcp⟩ | hnl
        · left; exact ⟨p, List.mem_cons_of_mem _ hp, hcp⟩
        · right; exact hnl
    · left
      exact ⟨acc.reverse, List.mem_cons_self _ _, List.mem_reverse.mpr h⟩
  | case3 c' rest acc hne ih =>
    intro c hc
    rw [splitParas.eq_3 acc c' rest hne]
    rcases hc with h | h
    · rcases List.mem_cons.mp h with rfl | h
      · rcases ih c (Or.inr (List.mem_cons_self _ _)) with hin | hnl
        · left; exact hin
        · right; exact hnl
      · rcases ih c (Or.inl h) with hin | hnl
        · left; exact hin
        · right; exact hnl
    · rcases ih c (Or.inr (List.mem_cons_of_mem _ h)) with hin | hnl
      · left; exact hin
      · right; exact hnl

/-- Characters of line-split pieces come from the input. -/
theorem splitLines_chars : ∀ (l acc : List Char) (p : List Char),
    p ∈ splitLines l acc → ∀ c ∈ p, c ∈ l ∨ c ∈ acc := by
  intro l acc
  induction l, acc using splitLines.induct with
  | case1 acc =>
    intro p hp c hc
    rw [splitLines] at hp
    rcases List.mem_singleton.mp hp with rfl
    exact Or.inr (List.mem_reverse.mp hc)
  | case2 rest acc ih =>
    intro p hp c hc
    rw [splitLines] at hp
    rcases List.mem_cons.mp hp with rfl | hp
    · exact Or.inr (List.mem_reverse.mp hc)
    · rcases ih p hp c hc with h | h
      · exact Or.inl (List.mem_cons_of_mem _ h)
      · simp at h
  | case3 c' rest acc hne ih =>
    intro p hp c hc
    rw [splitLines.eq_3 acc c' rest hne] at hp
    rcases ih p hp c hc with h | h
    · exact Or.inl (List.mem_cons_of_mem _ h)
    · rcases List.mem_cons.mp h with rfl | h
      · exact Or.inl (List.mem_cons_self _ _)
      · exact Or.inr h

theorem joinNl_ws : ∀ (ps : List (List Char)),
    (∀ p ∈ ps, ∀ c ∈ p, c.isWhitespace) → ∀ c ∈ joinNl ps, c.isWhitespace := by
  intro ps
  induction ps using joinNl.induct with
  | case1 =>
    intro _ c hc
    simp [joinNl] at hc
  | case2 l =>
    intro h c hc
    exact h l (List.mem_singleton.mpr rfl) c hc
  | case3 l l2 hne ih =>
    intro h c hc
    rw [joinNl] at hc
    · rcases List.mem_append.mp hc with hm | hm
      · exact h l (List.mem_cons_self _ _) c hm
      · rcases List.mem_cons.mp hm with rfl | hm
        · rfl
        · exact ih (fun p hp => h p (List.mem_cons_of_mem _ hp)) c hm
    · exact hne

/-- The 15-line grouping drops whitespace-only groups; on all-whitespace
lines it yields nothing. -/
theorem txtLineGroups_ws_nil : ∀ (total : Nat) (ls : List (List Char)) (i : Nat),
    (∀ p ∈ ls, ∀ c ∈ p, c.isWhitespace) → txtLineGroups total ls i = [] := by
  intro total ls i
  induction ls, i using txtLineGroups.induct total with
  | case1 i => intro _; rw [txtLineGroups]
  | case2 l rest i ih =>
    intro h
    rw [txtLineGroups]
    have hstrip : pyStripChars (joinNl ((l :: rest).take 15)) = [] := by
      apply pyStripChars_eq_nil
      apply joinNl_ws
      intro p hp c hc
      exact h p (List.mem_of_mem_take hp) c hc
    rw [if_neg (fun hcon => hcon hstrip), List.nil_append]
    exact ih (fun p hp c hc => h p (List.mem_of_mem_drop hp) c hc)

theorem digitVal_digitChar (m : Nat) (h : m < 10) : digitVal (Nat.digitChar m) = m := by
  interval_cases m <;> rfl

theorem numDigits_small {n : Nat} (h : n < 10) : numDigits n = 1 := by
  rw [numDigits, if_pos h]

theorem numDigits_large {n : Nat} (h : ¬n < 10) : numDigits n = numDigits (n / 10) + 1 := by
  rw [numDigits, if_neg h]

theorem ofDigitsFrom_nil (a : Nat) : ofDigitsFrom a [] = a := rfl

theorem ofDigitsFrom_cons (a : Nat) (c : Char) (rest : List Char) :
    ofDigitsFrom a (c :: rest) = ofDigitsFrom (a * 10 + digitVal c) rest := rfl

/-- The decimal parse is a left inverse of `Nat.toDigitsCore`, relative to an
accumulated prefix value. -/
theorem toDigitsCore_ofDigits : ∀ (fuel n : Nat) (ds : List Char) (a : Nat),
    n < 10 ^ fuel → 0 < fuel →
    ofDigitsFrom a (Nat.toDigitsCore 10 fuel n ds)
      = ofDigitsFrom (a * 10 ^ numDigits n + n) ds := by
  intro fuel
  induction fuel with
  | zero => intro n ds a _ hf; exact absurd hf (by omega)
  | succ f ih =>
    intro n ds a h _
    simp only [Nat.toDigitsCore]
    by_cases hz : n / 10 = 0
    · rw [if_pos hz]
      have hn10 : n < 10 := by omega
      rw [ofDigitsFrom_cons,
        digitVal_digitChar (n % 10) (Nat.mod_lt n (show 0 < 10 by omega)),
        numDigits_small hn10]
      have hmn : n % 10 = n := Nat.mod_eq_of_lt hn10
      rw [hmn, pow_one]
    · rw [if_neg hz]
      have hge : 10 ≤ n := by
        by_contra hlt
        exact hz (Nat.div_eq_of_lt (by omega))
      have hf0 : 0 < f := by
        by_contra hf0
        have hfz : f = 0 := by omega
        subst hfz
        norm_num at h
        omega
      have hlt : n / 10 < 10 ^ f := by
        rw [Nat.div_lt_iff_lt_mul (show 0 < 10 by omega)]
        calc n < 10 ^ (f + 1) := h
          _ = 10 ^ f * 10 := by rw [pow_succ]
      rw [ih (n / 10) (Nat.digitChar (n % 10) :: ds) a hlt hf0]
      rw [ofDigitsFrom_cons,
        digitVal_digitChar (n % 10) (Nat.mod_lt n (show 0 < 10 by omega))]
      congr 1
      rw [numDigits_large (show ¬n < 10 by omega), pow_succ]
      have hmod : 10 * (n / 10) + n % 10 = n := Nat.div_add_mod n 10
      calc (a * 10 ^ numDigits (n / 10) + n / 10) * 10 + n % 10
          = a * (10 ^ numDigits (n / 10) * 10) + (10 * (n / 10) + n % 10) := by ring
        _ = a * (10 ^ numDigits (n / 10) * 10) + n := by rw [hmod]

theorem ofDigits_toDigits (n : Nat) : ofDigitsFrom 0 (Nat.toDigits 10 n) = n := by
  have h1 : n < 10 ^ (n + 1) :=
    lt_of_lt_of_le (Nat.lt_pow_self (by omega) n)
      (Nat.pow_le_pow_right (by omega) (Nat.le_succ n))
  have h2 := toDigitsCore_ofDigits (n + 1) n [] 0 h1 (Nat.succ_pos n)
  rw [Nat.toDigits, h2, ofDigitsFrom_nil]
  omega

/-- `Nat.repr` is injective. -/
theorem nat_repr_inj {m n : Nat} (h : Nat.repr m = Nat.repr n) : m = n := by
  have hd : Nat.toDigits 10 m = Nat.toDigits 10 n := by
    have hdata := congrArg String.data h
    simpa [Nat.repr, List.asString] using hdata
  have hm := ofDigits_toDigits m
  rw [hd, ofDigits_toDigits n] at hm
  exact hm.symm

/-- Distinct timestamps give distinct timestamp-prefixed doc_ids. -/
theorem docId_inj (t1 t2 : Nat) (fn : String) (hne : t1 ≠ t2) :
    Nat.repr t1 ++ "_" ++ fn ≠ Nat.repr t2 ++ "_" ++ fn := by
  intro h
  apply hne
  apply nat_repr_inj
  have hd := congrArg String.data h
  simp only [String.data_append] at hd
  have h2 := List.append_cancel_right hd
  have h3 := List.append_cancel_right h2
  exact String.ext h3

theorem dictGet_dictSet_self (store : DocStore) (k : String) (v : StoredDoc) :
    dictGet (dictSet store k v) k = some v := by
  induction store with
  | nil => simp [dictSet, dictGet]
  | cons e rest ih =>
    by_cases h : e.1 = k
    · simp [dictSet, dictGet, h]
    · simp [dictSet, dictGet, h, ih]

theorem dictGet_dictSet_ne (store : DocStore) (k k' : String) (v : StoredDoc)
    (hne : k' ≠ k) : dictGet (dictSet store k v) k' = dictGet store k' := by
  induction store with
  | nil => simp [dictSet, dictGet, Ne.symm hne]
  | cons e rest ih =>
    by_cases h : e.1 = k
    · rw [dictSet, if_pos h, dictGet, if_neg (fun hk => hne hk.symm), dictGet, h,
        if_neg (fun hk => hne hk.symm)]
    · rw [dictSet, if_neg h]
      by_cases h' : e.1 = k'
      · rw [dictGet, if_pos h', dictGet, if_pos h']
      · rw [dictGet, if_neg h', dictGet, if_neg h', ih]

/-- Every `upload_file` call with a file either fails leaving the registry
unchanged, or succeeds with the timestamp-prefixed sanitized filename as
doc_id, inserting under exactly that key. -/
theorem upload_file_shape (secure_fn : String → String)
    (split_text : String → List String)
    (ep ed et : Except String (List TextSegment))
    (origName : String) (timestamp : Nat) (store : DocStore) :
    ((upload_file secure_fn split_text ep ed et true origName timestamp store).1.isSuccess
        = false
      ∧ (upload_file secure_fn split_text ep ed et true origName timestamp store).2 = store)
    ∨ (∃ d : StoredDoc, ∃ cnt : Nat,
        (upload_file secure_fn split_text ep ed et true origName timestamp store).1
            = UploadResponse.ok (Nat.repr timestamp ++ "_" ++ secure_fn origName)
                (secure_fn origName) cnt
          ∧ (upload_file secure_fn split_text ep ed et true origName timestamp store).2
            = dictSet store (Nat.repr timestamp ++ "_" ++ secure_fn origName) d) := by
  simp only [upload_file]
  repeat' split
  all_goals first
    | exact Or.inl ⟨rfl, rfl⟩
    | exact Or.inr ⟨_, _, rfl, rfl⟩

theorem setRate_self (store : RateStore) (identifier : String) (rec : List Int) :
    setRate store identifier rec identifier = rec := by
  simp [setRate]

/-- Branch characterization of `check_rate_limit`. -/
theorem check_rate_limit_eq (identifier : String) (now : Int) (store : RateStore) :
    check_rate_limit identifier now store
      = (let pruned := (store identifier).filter (fun timestamp =>
            now - RATE_LIMIT_WINDOW < timestamp)
         if pruned.length < RATE_LIMIT_REQUESTS
         then (true, setRate store identifier (pruned ++ [now]))
         else (false, setRate store identifier pruned)) := by
  simp only [check_rate_limit]
  by_cases h : RATE_LIMIT_REQUESTS ≤ ((store identifier).filter (fun timestamp =>
      now - RATE_LIMIT_WINDOW < timestamp)).length
  · rw [if_pos h, if_neg (by omega)]
  · rw [if_neg h, if_pos (by omega)]

/-! ## Claim theorems -/

/-- C4: each `check_rate_limit` call first drops the timestamps outside the
trailing 60-second window; it rejects exactly when at least 30 remain and
otherwise records the current timestamp and accepts. Consequently 30
requests within a 60-second window all succeed, the 31st within that window
is rejected, and a request after more than 60 further seconds succeeds
again. -/
theorem rate_limiter_behavior :
    (∀ (identifier : String) (now : Int) (store : RateStore),
      (check_rate_limit identifier now store).1
          = decide (((store identifier).filter (fun timestamp =>
              now - RATE_LIMIT_WINDOW < timestamp)).length < RATE_LIMIT_REQUESTS)
        ∧ (check_rate_limit identifier now store).2 identifier
          = (let pruned := (store identifier).filter (fun timestamp =>
              now - RATE_LIMIT_WINDOW < timestamp)
             if pruned.length < RATE_LIMIT_REQUESTS then pruned ++ [now] else pruned))
    ∧ (runRateChecks "client" (((List.range 30).map Int.ofNat) ++ [59, 121]) emptyRateStore).1
        = List.replicate 30 true ++ [false, true] := by
  refine ⟨fun identifier now store => ?_, by decide⟩
  rw [check_rate_limit_eq]
  by_cases h : ((store identifier).filter (fun timestamp =>
      now - RATE_LIMIT_WINDOW < timestamp)).length < RATE_LIMIT_REQUESTS
  · simp [h, setRate_self]
  · simp [h, setRate_self]

/-- C9: after any `check_rate_limit` call, every timestamp remaining in the
identifier's record lies inside the trailing 60-second window, the record
holds at most 30 timestamps (given it held at most 30 before, which all
reachable stores do), and a rejected check appends nothing: the record is
exactly the pruned previous record. -/
theorem rate_limit_state_invariant (identifier : String) (now : Int) (store : RateStore)
    (hlen : (store identifier).length ≤ 30) :
    (∀ t ∈ (check_rate_limit identifier now store).2 identifier,
        now - RATE_LIMIT_WINDOW < t)
      ∧ ((check_rate_limit identifier now store).2 identifier).length ≤ 30
      ∧ ((check_rate_limit identifier now store).1 = false →
          (check_rate_limit identifier now store).2 identifier
            = (store identifier).filter (fun timestamp =>
                now - RATE_LIMIT_WINDOW < timestamp)) := by
  have hfl : ((store identifier).filter (fun timestamp =>
      now - RATE_LIMIT_WINDOW < timestamp)).length ≤ (store identifier).length :=
    List.length_filter_le _ _
  rw [check_rate_limit_eq]
  by_cases h : ((store identifier).filter (fun timestamp =>
      now - RATE_LIMIT_WINDOW < timestamp)).length < RATE_LIMIT_REQUESTS
  · simp only [h, if_pos, setRate_self]
    refine ⟨?_, ?_, ?_⟩
    · intro t ht
      rcases List.mem_append.mp ht with ht | ht
      · simpa using (List.mem_filter.mp ht).2
      · rcases List.mem_singleton.mp ht with rfl
        simp only [RATE_LIMIT_WINDOW]; omega
    · simp only [List.length_append, List.length_singleton]
      simp only [RATE_LIMIT_REQUESTS] at h
      omega
    · intro hfalse; simp at hfalse
  · simp only [h, if_neg, if_false, setRate_self]
    refine ⟨?_, by omega, by simp⟩
    intro t ht
    simpa using (List.mem_filter.mp ht).2

/-- Witness for C9 at a concrete input. -/
theorem rate_limit_state_invariant_witness :
    (emptyRateStore "c").length ≤ 30
      ∧ ∀ t ∈ (check_rate_limit "c" 100 emptyRateStore).2 "c",
          100 - RATE_LIMIT_WINDOW < t :=
  ⟨by decide, (rate_limit_state_invariant "c" 100 emptyRateStore (by decide)).1⟩

/-- C10: on both streaming endpoints the rate-limit check runs before request
validation: the rate store is updated by the check on every request; a
request over the limit receives 429 even when the question is missing or the
registry is empty; and an invalid request under the limit still records its
timestamp against the quota before being rejected as invalid. -/
theorem streaming_rate_limit_precedes_validation
    (llmT : List String) (llmE : Option String) (question doc_id client_ip : String)
    (now : Int) (docStore : DocStore) (rateStore : RateStore) :
    ((ask_question_stream llmT llmE question doc_id client_ip now docStore rateStore).2.2
        = (check_rate_limit client_ip now rateStore).2
      ∧ (ask_multi_document llmT llmE question client_ip now docStore rateStore).2.2
        = (check_rate_limit client_ip now rateStore).2)
    ∧ (RATE_LIMIT_REQUESTS ≤ ((rateStore client_ip).filter (fun timestamp =>
          now - RATE_LIMIT_WINDOW < timestamp)).length →
        (ask_question_stream llmT llmE "" doc_id client_ip now docStore rateStore).1
            = AskOutcome.rateLimited
          ∧ (ask_multi_document llmT llmE "" client_ip now [] rateStore).1
            = AskOutcome.rateLimited)
    ∧ (((rateStore client_ip).filter (fun timestamp =>
          now - RATE_LIMIT_WINDOW < timestamp)).length < RATE_LIMIT_REQUESTS →
        (check_rate_limit client_ip now rateStore).2 client_ip
            = ((rateStore client_ip).filter (fun timestamp =>
                now - RATE_LIMIT_WINDOW < timestamp)) ++ [now]
          ∧ (ask_question_stream llmT llmE "" doc_id client_ip now docStore rateStore).1
            = AskOutcome.missingQuestion
          ∧ (question ≠ "" → doc_id ≠ "" → dictGet docStore doc_id = none →
              (ask_question_stream llmT llmE question doc_id client_ip now docStore rateStore).1
                = AskOutcome.invalidDoc)
          ∧ (ask_multi_document llmT llmE "" client_ip now docStore rateStore).1
            = AskOutcome.missingQuestion
          ∧ (question ≠ "" →
              (ask_multi_document llmT llmE question client_ip now [] rateStore).1
                = AskOutcome.noDocs)) := by
  have hc := check_rate_limit_eq client_ip now rateStore
  refine ⟨⟨?_, ?_⟩, fun h => ?_, fun h => ?_⟩
  · unfold ask_question_stream
    by_cases hb : (check_rate_limit client_ip now rateStore).1 = false
    · simp [hb]
    · simp only [hb, if_false]
      repeat' split
      all_goals rfl
  · unfold ask_multi_document
    by_cases hb : (check_rate_limit client_ip now rateStore).1 = false
    · simp [hb]
    · simp only [hb, if_false]
      repeat' split
      all_goals rfl
  · rw [if_neg (by omega)] at hc
    constructor
    · unfold ask_question_stream
      rw [hc]
      simp
    · unfold ask_multi_document
      rw [hc]
      simp
  · rw [if_pos h] at hc
    refine ⟨by rw [hc]; exact setRate_self .., ?_, ?_, ?_, ?_⟩
    · unfold ask_question_stream
      rw [hc]
      simp
    · intro hq hd hget
      unfold ask_question_stream
      rw [hc]
      simp [hq, hd, hget]
    · unfold ask_multi_document
      rw [hc]
      simp
    · intro hq
      unfold ask_multi_document
      rw [hc]
      simp [hq]

/-- Witness for C10 at concrete inputs: a full window forces 429 on a request
whose question is empty, and an under-limit invalid request still records its
timestamp. -/
theorem streaming_rate_limit_precedes_validation_witness :
    (RATE_LIMIT_REQUESTS ≤ ((exFullRateStore "c").filter (fun timestamp =>
        (59:Int) - RATE_LIMIT_WINDOW < timestamp)).length
      ∧ (ask_question_stream [] none "" "d" "c" 59 [] exFullRateStore).1
          = AskOutcome.rateLimited)
    ∧ (((emptyRateStore "c").filter (fun timestamp =>
        (7:Int) - RATE_LIMIT_WINDOW < timestamp)).length < RATE_LIMIT_REQUESTS
      ∧ (check_rate_limit "c" 7 emptyRateStore).2 "c"
          = ((emptyRateStore "c").filter (fun timestamp =>
              (7:Int) - RATE_LIMIT_WINDOW < timestamp)) ++ [7]) :=
  ⟨⟨by decide,
    ((streaming_rate_limit_precedes_validation [] none "" "d" "c" 59 [] exFullRateStore).2.1
      (by decide)).1⟩,
   ⟨by decide,
    ((streaming_rate_limit_precedes_validation [] none "" "d" "c" 7 [] emptyRateStore).2.2
      (by decide)).1⟩⟩

/-- C6: on `/api/ask-stream`, when retrieval is non-empty the trailing event
carries references built from the top 3 chunks and confidence that is
"high" exactly when at least 2 chunks were retrieved ("medium" otherwise);
on `/api/ask-multi` the references come from the top 5 and "high" requires
at least 3; on both, empty retrieval yields the canned token followed by a
final event with empty references and confidence "low". -/
theorem confidence_labeling (question : String) (chunks : List Chunk) (store : DocStore)
    (llmTokens : List String) :
    (find_relevant_chunks_fast Chunk.text question chunks ≠ [] →
       ask_stream_generate question chunks llmTokens none
         = llmTokens.map StreamEvent.token ++
             [StreamEvent.final
               (((find_relevant_chunks_fast Chunk.text question chunks).take 3).map (fun c =>
                 { text := truncRef c.text, metadata := c.metadata }))
               (if 2 ≤ (find_relevant_chunks_fast Chunk.text question chunks).length
                then "high" else "medium")]
       ∧ ((if 2 ≤ (find_relevant_chunks_fast Chunk.text question chunks).length
           then "high" else "medium") = "high"
          ↔ 2 ≤ (find_relevant_chunks_fast Chunk.text question chunks).length))
    ∧ (find_relevant_chunks_fast Chunk.text question chunks = [] →
       ask_stream_generate question chunks llmTokens none
         = [StreamEvent.token cannedNoMatchStream, StreamEvent.final [] "low"])
    ∧ (find_relevant_chunks_fast TaggedChunk.text question (collectAllChunks store) ≠ [] →
       ask_multi_generate question store llmTokens none
         = llmTokens.map StreamEvent.token ++
             [StreamEvent.final
               (((find_relevant_chunks_fast TaggedChunk.text question
                   (collectAllChunks store)).take 5).map (fun c =>
                 { text := truncRef c.text, metadata := c.metadata, source := c.source }))
               (if 3 ≤ (find_relevant_chunks_fast TaggedChunk.text question
                   (collectAllChunks store)).length
                then "high" else "medium")]
       ∧ ((if 3 ≤ (find_relevant_chunks_fast TaggedChunk.text question
             (collectAllChunks store)).length
           then "high" else "medium") = "high"
          ↔ 3 ≤ (find_relevant_chunks_fast TaggedChunk.text question
              (collectAllChunks store)).length))
    ∧ (find_relevant_chunks_fast TaggedChunk.text question (collectAllChunks store) = [] →
       ask_multi_generate question store llmTokens none
         = [StreamEvent.token cannedNoMatchMulti, StreamEvent.final [] "low"]) := by
  refine ⟨fun h => ⟨?_, ?_⟩, fun h => ?_, fun h => ⟨?_, ?_⟩, fun h => ?_⟩
  · unfold ask_stream_generate
    rw [if_neg h]
  · by_cases h2 : 2 ≤ (find_relevant_chunks_fast Chunk.text question chunks).length
    · simp [h2]
    · simp [h2]
  · unfold ask_stream_generate
    rw [if_pos h]
  · unfold ask_multi_generate
    rw [if_neg h]
  · by_cases h3 : 3 ≤ (find_relevant_chunks_fast TaggedChunk.text question
        (collectAllChunks store)).length
    · simp [h3]
    · simp [h3]
  · unfold ask_multi_generate
    rw [if_pos h]

/-- Witness for C6 at concrete inputs: one retrieved chunk gives confidence
"medium" on the stream endpoint; an unmatchable question gives the canned
low-confidence pair. -/
theorem confidence_labeling_witness :
    (find_relevant_chunks_fast Chunk.text "capital" [exParisChunk] ≠ []
      ∧ ask_stream_generate "capital" [exParisChunk] ["tok"] none
          = [StreamEvent.token "tok",
             StreamEvent.final [{ text := exParisChunk.text, metadata := exParisChunk.metadata }]
               "medium"])
    ∧ (find_relevant_chunks_fast Chunk.text "qxzv" [] = []
      ∧ ask_stream_generate "qxzv" [] ["tok"] none
          = [StreamEvent.token cannedNoMatchStream, StreamEvent.final [] "low"]) := by
  constructor
  · refine ⟨by decide, ?_⟩
    have h := (confidence_labeling "capital" [exParisChunk] [] ["tok"]).1 (by decide)
    rw [h.1]
    decide
  · refine ⟨by decide, ?_⟩
    exact (confidence_labeling "qxzv" [] [] ["tok"]).2.1 (by decide)

/-- C2 counterexample: a failure whose text contains both "model" and
"not found" is reported by `/api/ask-multi` as the generic processing error,
not as the Ollama configuration hint, refuting the claim for that
endpoint. -/
theorem multi_error_hint_counterexample :
    ask_multi_generate "capital" exDocStore [] (some "model llama2 not found")
        = [StreamEvent.error "Error processing question: model llama2 not found"]
      ∧ (strContains (pyLower "model llama2 not found") "model" = true
          ∧ strContains (pyLower "model llama2 not found") "not found" = true)
      ∧ StreamEvent.error (ρ := MultiReference)
            "Error processing question: model llama2 not found"
          ≠ StreamEvent.error "Ollama model error: model llama2 not found" := by
  refine ⟨by decide, by decide, by decide⟩

/-- C2 amended: on `/api/ask-stream` a runtime failure during answering is
delivered as an error event, presented as an Ollama configuration hint
exactly when the failure text contains "model" or "not found"
(case-insensitive); on `/api/ask-multi` a runtime failure is always
delivered as the generic processing error, with no such heuristic. -/
theorem ask_error_reporting (question e : String) (chunks : List Chunk)
    (store : DocStore) (llmTokens : List String) :
    (find_relevant_chunks_fast Chunk.text question chunks ≠ [] →
       ask_stream_generate question chunks llmTokens (some e)
         = llmTokens.map StreamEvent.token ++
             [StreamEvent.error
               (if strContains (pyLower e) "model" || strContains (pyLower e) "not found"
                then "Ollama model error: " ++ e
                else "Error processing question: " ++ e)])
    ∧ (find_relevant_chunks_fast TaggedChunk.text question (collectAllChunks store) ≠ [] →
       ask_multi_generate question store llmTokens (some e)
         = llmTokens.map StreamEvent.token ++
             [StreamEvent.error ("Error processing question: " ++ e)]) := by
  constructor
  · intro h
    unfold ask_stream_generate
    rw [if_neg h]
    by_cases hm : strContains (pyLower e) "model" || strContains (pyLower e) "not found"
    · simp [hm]
    · simp [hm]
  · intro h
    unfold ask_multi_generate
    rw [if_neg h]

/-- Witness for C2 (amended) at concrete inputs. -/
theorem ask_error_reporting_witness :
    (find_relevant_chunks_fast Chunk.text "capital" [exParisChunk] ≠ []
      ∧ ask_stream_generate "capital" [exParisChunk] [] (some "model x Not Found")
          = [StreamEvent.error "Ollama model error: model x Not Found"])
    ∧ (find_relevant_chunks_fast TaggedChunk.text "capital" (collectAllChunks exDocStore) ≠ []
      ∧ ask_multi_generate "capital" exDocStore [] (some "boom")
          = [StreamEvent.error "Error processing question: boom"]) := by
  constructor
  · refine ⟨by decide, ?_⟩
    have h := (ask_error_reporting "capital" "model x Not Found" [exParisChunk] [] []).1
      (by decide)
    rw [h]
    decide
  · refine ⟨by decide, ?_⟩
    exact (ask_error_reporting "capital" "boom" [] exDocStore []).2 (by decide)

/-- C3: `find_relevant_chunks_fast` scores each chunk by the size of the
intersection of the lower-cased whitespace-split word sets of question and
chunk text; a chunk qualifies exactly when its score is positive or some
question word occurs as a substring of the lower-cased chunk text
(`chunkQualifies`); the result is the qualifying chunks sorted by score
descending with ties keeping original order (`pySort`, a stable sort),
capped at 10; when nothing qualifies it is the first 5 chunks in original
order. (The bare `except` fallback is unreachable in the embedded total
body.) -/
theorem keyword_retrieval_spec {α : Type} (getText : α → String) (question : String)
    (chunks : List α) :
    (qualifyingChunks getText question chunks = [] →
       find_relevant_chunks_fast getText question chunks = chunks.take 5)
    ∧ (qualifyingChunks getText question chunks ≠ [] →
       find_relevant_chunks_fast getText question chunks
         = (pySort (scoreOrder getText question)
             (qualifyingChunks getText question chunks)).take 10)
    ∧ (qualifyingChunks getText question chunks ≠ [] →
       (find_relevant_chunks_fast getText question chunks).length
         = min 10 (qualifyingChunks getText question chunks).length)
    ∧ (qualifyingChunks getText question chunks ≠ [] →
       (find_relevant_chunks_fast getText question chunks).Pairwise
         (fun a b => overlapScore question (getText b) ≤ overlapScore question (getText a)))
    ∧ (∀ a b : α, List.Sublist [a, b] (qualifyingChunks getText question chunks) →
       overlapScore question (getText b) ≤ overlapScore question (getText a) →
       List.Sublist [a, b] (pySort (scoreOrder getText question)
         (qualifyingChunks getText question chunks))) := by
  refine ⟨find_relevant_of_no_qualifier getText question chunks,
    find_relevant_of_qualifier getText question chunks, fun hq => ?_, fun hq => ?_, ?_⟩
  · rw [find_relevant_of_qualifier getText question chunks hq]
    simp [List.length_take, length_pySort]
  · rw [find_relevant_of_qualifier getText question chunks hq]
    have hs : (pySort (scoreOrder getText question)
        (qualifyingChunks getText question chunks)).Pairwise
          (fun a b => scoreOrder getText question a b) := by
      rw [pySort_eq_mergeSort (scoreOrder getText question)
        (keyDesc_trans (fun c => overlapScore question (getText c)))
        (keyDesc_total (fun c => overlapScore question (getText c)))]
      exact List.sorted_mergeSort
        (keyDesc_trans (fun c => overlapScore question (getText c)))
        (keyDesc_total (fun c => overlapScore question (getText c)))
        (qualifyingChunks getText question chunks)
    exact ((hs.sublist (List.take_sublist 10 _)).imp (fun h => by
      simpa [scoreOrder] using h))
  · intro a b hsub hscore
    rw [pySort_eq_mergeSort (scoreOrder getText question)
      (keyDesc_trans (fun c => overlapScore question (getText c)))
      (keyDesc_total (fun c => overlapScore question (getText c)))]
    exact List.pair_sublist_mergeSort
      (keyDesc_trans (fun c => overlapScore question (getText c)))
      (keyDesc_total (fun c => overlapScore question (getText c)))
      (by simpa [scoreOrder] using hscore) hsub

/-- Witness for C3 at concrete inputs, exercising the qualifying branch, the
empty-qualifier fallback, and the stability conjunct. -/
theorem keyword_retrieval_spec_witness :
    (qualifyingChunks Chunk.text "What is the capital of France"
        [exParisChunk, exCapitalChunk, exOtherChunk] ≠ []
      ∧ find_relevant_chunks_fast Chunk.text "What is the capital of France"
            [exParisChunk, exCapitalChunk, exOtherChunk]
          = (pySort (scoreOrder Chunk.text "What is the capital of France")
              (qualifyingChunks Chunk.text "What is the capital of France"
                [exParisChunk, exCapitalChunk, exOtherChunk])).take 10)
    ∧ (qualifyingChunks Chunk.text "qxzv" [exOtherChunk] = []
      ∧ find_relevant_chunks_fast Chunk.text "qxzv" [exOtherChunk] = [exOtherChunk].take 5)
    ∧ (List.Sublist [exParisChunk, exCapitalChunk] (qualifyingChunks Chunk.text
          "What is the capital of France" [exParisChunk, exCapitalChunk, exOtherChunk])
      ∧ overlapScore "What is the capital of France" exCapitalChunk.text
          ≤ overlapScore "What is the capital of France" exParisChunk.text
      ∧ List.Sublist [exParisChunk, exCapitalChunk] (pySort
          (scoreOrder Chunk.text "What is the capital of France")
          (qualifyingChunks Chunk.text "What is the capital of France"
            [exParisChunk, exCapitalChunk, exOtherChunk]))) :=
  ⟨⟨by decide,
    (keyword_retrieval_spec Chunk.text "What is the capital of France"
      [exParisChunk, exCapitalChunk, exOtherChunk]).2.1 (by decide)⟩,
   ⟨by decide,
    (keyword_retrieval_spec Chunk.text "qxzv" [exOtherChunk]).1 (by decide)⟩,
   ⟨by decide, by decide,
    (keyword_retrieval_spec Chunk.text "What is the capital of France"
      [exParisChunk, exCapitalChunk, exOtherChunk]).2.2.2.2 exParisChunk exCapitalChunk
      (by decide) (by decide)⟩⟩

/-- Every `upload_file` call either leaves the registry untouched or reports
success. -/
theorem upload_file_untouched_or_success (secure_fn : String → String)
    (split_text : String → List String)
    (extract_pdf extract_docx extract_txt : Except String (List TextSegment))
    (hasFile : Bool) (origName : String) (timestamp : Nat) (store : DocStore) :
    (upload_file secure_fn split_text extract_pdf extract_docx extract_txt
        hasFile origName timestamp store).2 = store
      ∨ (upload_file secure_fn split_text extract_pdf extract_docx extract_txt
        hasFile origName timestamp store).1.isSuccess = true := by
  simp only [upload_file]
  repeat' split
  all_goals first
    | exact Or.inl rfl
    | exact Or.inr rfl

/-- C7: a failing upload — rejected with 400 (no file field, empty filename,
disallowed extension) or failing with 500 during extraction — registers
nothing: the registry after the request is exactly the registry before. -/
theorem upload_atomicity (secure_fn : String → String)
    (split_text : String → List String)
    (extract_pdf extract_docx extract_txt : Except String (List TextSegment))
    (hasFile : Bool) (origName : String) (timestamp : Nat) (store : DocStore)
    (hfail : (upload_file secure_fn split_text extract_pdf extract_docx extract_txt
        hasFile origName timestamp store).1.isSuccess = false) :
    (upload_file secure_fn split_text extract_pdf extract_docx extract_txt
        hasFile origName timestamp store).2 = store := by
  rcases upload_file_untouched_or_success secure_fn split_text extract_pdf extract_docx
    extract_txt hasFile origName timestamp store with h | h
  · exact h
  · rw [h] at hfail
    exact absurd hfail (by simp)

/-- Witness for C7: a disallowed extension and a failing extraction both
leave a one-document registry unchanged. -/
theorem upload_atomicity_witness :
    ((upload_file id (fun s => [s]) (.ok []) (.ok []) (.ok [])
        true "a.xlsx" 5 exDocStore).1.isSuccess = false
      ∧ (upload_file id (fun s => [s]) (.ok []) (.ok []) (.ok [])
        true "a.xlsx" 5 exDocStore).2 = exDocStore)
    ∧ ((upload_file id (fun s => [s]) (.ok []) (.ok []) (.error "bad txt")
        true "b.txt" 5 exDocStore).1.isSuccess = false
      ∧ (upload_file id (fun s => [s]) (.ok []) (.ok []) (.error "bad txt")
        true "b.txt" 5 exDocStore).2 = exDocStore) :=
  ⟨⟨by decide,
    upload_atomicity id (fun s => [s]) (.ok []) (.ok []) (.ok [])
      true "a.xlsx" 5 exDocStore (by decide)⟩,
   ⟨by decide,
    upload_atomicity id (fun s => [s]) (.ok []) (.ok []) (.error "bad txt")
      true "b.txt" 5 exDocStore (by decide)⟩⟩

/-- C8: only a successful upload mutates the document registry. Document
listing, document fetch and both streaming asks return the registry exactly
as given, every stored document included; `/api/ask-multi` tags copies of
the stored chunks with their source filename: stripping the tag recovers
precisely the stored chunks in order, and each tagged copy carries the
filename of the document owning the original chunk. -/
theorem registry_frame (store : DocStore) (doc_id question client_ip : String)
    (now : Int) (rs : RateStore) (llmT : List String) (llmE : Option String) :
    (get_documents store).2 = store
    ∧ (get_document store doc_id).2 = store
    ∧ (ask_question_stream llmT llmE question doc_id client_ip now store rs).2.1 = store
    ∧ (ask_multi_document llmT llmE question client_ip now store rs).2.1 = store
    ∧ (collectAllChunks store).map (fun t => Chunk.mk t.text t.metadata)
        = store.flatMap (fun e => e.2.chunks)
    ∧ ∀ t ∈ collectAllChunks store, ∃ e ∈ store,
        t.source = e.2.filename ∧ Chunk.mk t.text t.metadata ∈ e.2.chunks := by
  refine ⟨rfl, ?_, ?_, ?_, ?_, ?_⟩
  · unfold get_document
    split
    all_goals rfl
  · unfold ask_question_stream
    by_cases hb : (check_rate_limit client_ip now rs).1 = false
    · simp [hb]
    · simp only [hb, if_false]
      repeat' split
      all_goals rfl
  · unfold ask_multi_document
    by_cases hb : (check_rate_limit client_ip now rs).1 = false
    · simp [hb]
    · simp only [hb, if_false]
      repeat' split
      all_goals rfl
  · induction store with
    | nil => rfl
    | cons e rest ih =>
      simp only [collectAllChunks] at ih ⊢
      simp only [List.flatMap_cons, List.map_append, ih]
      congr 1
      rw [List.map_map]
      exact List.map_id e.2.chunks
  · intro t ht
    simp only [collectAllChunks, List.mem_flatMap, List.mem_map] at ht
    obtain ⟨e, he, c, hc, rfl⟩ := ht
    exact ⟨e, he, rfl, by simpa using hc⟩

/-- Witness for C8 at a concrete registry. -/
theorem registry_frame_witness :
    (get_documents exDocStore).2 = exDocStore
      ∧ (collectAllChunks exDocStore).map (fun t => Chunk.mk t.text t.metadata)
        = exDocStore.flatMap (fun e => e.2.chunks) :=
  ⟨(registry_frame exDocStore "d" "q" "c" 0 emptyRateStore [] none).1,
   (registry_frame exDocStore "d" "q" "c" 0 emptyRateStore [] none).2.2.2.2.1⟩

/-- C5 counterexample: two successful uploads of the same filename at the
same integer timestamp (the same second) produce the SAME doc_id
`"100_a.txt"`, the registry ends with a single entry, and that entry is the
second document — the first was overwritten, refuting distinctness,
independent retrievability and no-overwrite as universally stated. -/
theorem upload_same_second_overwrite :
    exUpload1.1 = UploadResponse.ok "100_a.txt" "a.txt" 1
    ∧ exUpload2.1 = UploadResponse.ok "100_a.txt" "a.txt" 1
    ∧ exUpload2.2.length = 1
    ∧ dictGet exUpload2.2 "100_a.txt"
        = some { filename := "a.txt", file_type := "txt",
                 chunks := [{ text := "beta", metadata := SegLabel.lines "¶1" }],
                 raw_text_data := [{ label := SegLabel.lines "¶1", text := "beta" }],
                 uploaded_at := 100 } := by
  decide

/-- C5 amended: two successful uploads of files with the same filename
produce distinct doc_id values PROVIDED their integer timestamps differ;
then both documents remain independently retrievable (the second upload
leaves the first entry intact) and no entry under any other key changes.
Uploads within the same second collide (see the counterexample). -/
theorem upload_distinct_timestamps
    (secure_fn : String → String) (split_text : String → List String)
    (ep1 ed1 et1 ep2 ed2 et2 : Except String (List TextSegment))
    (origName : String) (t1 t2 : Nat) (store : DocStore)
    (hne : t1 ≠ t2)
    (h1 : (upload_file secure_fn split_text ep1 ed1 et1
        true origName t1 store).1.isSuccess = true)
    (h2 : (upload_file secure_fn split_text ep2 ed2 et2 true origName t2
        (upload_file secure_fn split_text ep1 ed1 et1
          true origName t1 store).2).1.isSuccess = true) :
    (Nat.repr t1 ++ "_" ++ secure_fn origName)
        ≠ (Nat.repr t2 ++ "_" ++ secure_fn origName)
    ∧ dictGet (upload_file secure_fn split_text ep2 ed2 et2 true origName t2
          (upload_file secure_fn split_text ep1 ed1 et1 true origName t1 store).2).2
        (Nat.repr t1 ++ "_" ++ secure_fn origName)
      = dictGet (upload_file secure_fn split_text ep1 ed1 et1 true origName t1 store).2
          (Nat.repr t1 ++ "_" ++ secure_fn origName)
    ∧ (dictGet (upload_file secure_fn split_text ep1 ed1 et1 true origName t1 store).2
        (Nat.repr t1 ++ "_" ++ secure_fn origName)).isSome = true
    ∧ (dictGet (upload_file secure_fn split_text ep2 ed2 et2 true origName t2
          (upload_file secure_fn split_text ep1 ed1 et1 true origName t1 store).2).2
        (Nat.repr t2 ++ "_" ++ secure_fn origName)).isSome = true
    ∧ ∀ k : String, k ≠ (Nat.repr t1 ++ "_" ++ secure_fn origName) →
        k ≠ (Nat.repr t2 ++ "_" ++ secure_fn origName) →
        dictGet (upload_file secure_fn split_text ep2 ed2 et2 true origName t2
            (upload_file secure_fn split_text ep1 ed1 et1 true origName t1 store).2).2 k
          = dictGet store k := by
  rcases upload_file_shape secure_fn split_text ep1 ed1 et1 origName t1 store with
    ⟨hf, _⟩ | ⟨d1, c1, hr1, hs1⟩
  · rw [hf] at h1
    exact absurd h1 (by simp)
  rcases upload_file_shape secure_fn split_text ep2 ed2 et2 origName t2
      (upload_file secure_fn split_text ep1 ed1 et1 true origName t1 store).2 with
    ⟨hf, _⟩ | ⟨d2, c2, hr2, hs2⟩
  · rw [hf] at h2
    exact absurd h2 (by simp)
  have hid := docId_inj t1 t2 (secure_fn origName) hne
  refine ⟨hid, ?_, ?_, ?_, ?_⟩
  · rw [hs2, dictGet_dictSet_ne _ _ _ _ hid]
  · rw [hs1, dictGet_dictSet_self]
    rfl
  · rw [hs2, dictGet_dictSet_self]
    rfl
  · intro k hk1 hk2
    rw [hs2, dictGet_dictSet_ne _ _ _ _ hk2, hs1, dictGet_dictSet_ne _ _ _ _ hk1]

/-- Witness for C5 (amended) at concrete inputs: timestamps 1 and 2. -/
theorem upload_distinct_timestamps_witness :
    (Nat.repr 1 ++ "_" ++ id "a.txt") ≠ (Nat.repr 2 ++ "_" ++ id "a.txt")
    ∧ (dictGet (upload_file id (fun s => [s]) (.ok []) (.ok [])
          (.ok [{ label := SegLabel.lines "¶1", text := "beta" }]) true "a.txt" 2
          (upload_file id (fun s => [s]) (.ok []) (.ok [])
            (.ok [{ label := SegLabel.lines "¶1", text := "alpha" }])
            true "a.txt" 1 []).2).2
        (Nat.repr 2 ++ "_" ++ id "a.txt")).isSome = true :=
  ⟨(upload_distinct_timestamps id (fun s => [s]) (.ok []) (.ok [])
      (.ok [{ label := SegLabel.lines "¶1", text := "alpha" }]) (.ok []) (.ok [])
      (.ok [{ label := SegLabel.lines "¶1", text := "beta" }])
      "a.txt" 1 2 [] (by decide) (by decide) (by decide)).1,
   (upload_distinct_timestamps id (fun s => [s]) (.ok []) (.ok [])
      (.ok [{ label := SegLabel.lines "¶1", text := "alpha" }]) (.ok []) (.ok [])
      (.ok [{ label := SegLabel.lines "¶1", text := "beta" }])
      "a.txt" 1 2 [] (by decide) (by decide) (by decide)).2.2.2.1⟩

/-- C1 counterexample: a 30-line UTF-8 text with no blank lines contains no
`"\n\n"`, so the whole text is one non-empty paragraph: the extractor
returns a single segment labeled `"¶1"`, not the two segments `"1-15"` and
`"16-30"` the claim requires. -/
theorem txt_thirty_lines_counterexample :
    (extract_text_from_txt exThirtyLines).map TextSegment.label = [SegLabel.lines "¶1"]
    ∧ (extract_text_from_txt exThirtyLines).length ≠ 2 := by
  decide

/-- C1 amended: `extract_text_from_txt` returns one TextSegment per
non-empty stripped blank-line-delimited paragraph, labeled `"¶N"` with `N`
counting from 1 in order; this branch applies whenever any such paragraph
exists — in particular to a single block with no blank lines, which yields
one segment `"¶1"`. The 15-line fallback runs only when the text has no
non-whitespace content at all, and then it emits no segments (every
15-line group strips to empty), so the extractor returns the empty list. -/
theorem txt_extraction_behavior (text : String) :
    (((splitParas text.data []).map (fun p => pyStripChars p)).filter (fun p => p ≠ []) ≠ [] →
      extract_text_from_txt text
          = (((splitParas text.data []).map (fun p => pyStripChars p)).filter
              (fun p => p ≠ [])).enum.map
              (fun ip => { label := SegLabel.lines ("¶" ++ Nat.repr (ip.1 + 1)),
                           text := (⟨ip.2⟩ : String) })
        ∧ (extract_text_from_txt text).map TextSegment.label
          = (List.range (((splitParas text.data []).map (fun p => pyStripChars p)).filter
              (fun p => p ≠ [])).length).map
              (fun i => SegLabel.lines ("¶" ++ Nat.repr (i + 1)))
        ∧ (extract_text_from_txt text).length
          = (((splitParas text.data []).map (fun p => pyStripChars p)).filter
              (fun p => p ≠ [])).length)
    ∧ (((splitParas text.data []).map (fun p => pyStripChars p)).filter (fun p => p ≠ []) = [] →
        extract_text_from_txt text = []) := by
  constructor
  · intro h
    have he : extract_text_from_txt text
        = (((splitParas text.data []).map (fun p => pyStripChars p)).filter
            (fun p => p ≠ [])).enum.map
            (fun ip => { label := SegLabel.lines ("¶" ++ Nat.repr (ip.1 + 1)),
                         text := (⟨ip.2⟩ : String) }) := by
      unfold extract_text_from_txt
      rw [if_pos h]
    refine ⟨he, ?_, ?_⟩
    · rw [he, List.map_map]
      rw [show (TextSegment.label ∘ (fun ip : Nat × List Char =>
            ({ label := SegLabel.lines ("¶" ++ Nat.repr (ip.1 + 1)),
               text := (⟨ip.2⟩ : String) } : TextSegment)))
          = ((fun i => SegLabel.lines ("¶" ++ Nat.repr (i + 1))) ∘ Prod.fst) from rfl]
      rw [← List.map_map, List.enum_map_fst]
    · rw [he]
      simp [List.length_map, List.enum_length]
  · intro h
    unfold extract_text_from_txt
    rw [if_neg (by simpa using h)]
    apply txtLineGroups_ws_nil
    intro p hp c hc
    have hmem : c ∈ text.data := by
      rcases splitLines_chars text.data [] p hp c hc with hm | hm
      · exact hm
      · simp at hm
    have hall : ∀ q ∈ splitParas text.data [], pyStripChars q = [] := by
      intro q hq
      have hx := List.filter_eq_nil_iff.mp h (pyStripChars q) (List.mem_map_of_mem _ hq)
      simpa using hx
    rcases splitParas_chars text.data [] c (Or.inl hmem) with ⟨q, hq, hcq⟩ | rfl
    · exact mem_of_pyStripChars_nil (hall q hq) c hcq
    · rfl

/-- Witness for C1 (amended) at concrete inputs: a two-paragraph text takes
the paragraph branch; a whitespace-only text yields no segments. -/
theorem txt_extraction_behavior_witness :
    extract_text_from_txt "para one\n\npara two"
        = ((((splitParas ("para one\n\npara two").data []).map
            (fun p => pyStripChars p)).filter (fun p => p ≠ [])).enum.map
            (fun ip => { label := SegLabel.lines ("¶" ++ Nat.repr (ip.1 + 1)),
                         text := (⟨ip.2⟩ : String) }))
    ∧ extract_text_from_txt "  \n \n\n \n" = [] :=
  ⟨((txt_extraction_behavior "para one\n\npara two").1 (by decide)).1,
   (txt_extraction_behavior "  \n \n\n \n").2 (by decide)⟩

end DocuQuery
